import Mathlib

/-!
Verification of the restore pipeline in `cbfsclient/restore.go`.

The Go source is shallowly embedded below.  Pure control flow is translated
directly; the effectful parts (HTTP POST, logging, process abort via
`log.Fatalf`) are made explicit:

* an HTTP `Oracle` maps the request (URL, body) to the transport outcome;
* `restoreFile` returns its Go result (`nil` / `error` / `log.Fatalf`) as a
  `RestoreResult`, together with the list of network submissions it performed
  and the diagnostic text it copied to stderr;
* the scanning loop of `restoreCommand` and the worker loop of
  `restoreWorker` are structural recursions over the archive's decode events
  and over the dispatched items.

External library behavior (`net/url`, `encoding/json`'s `RawMessage`) is
modelled at the granularity the program uses, as documented on each
definition.
-/

namespace Cbfs

/-- One archive record, as decoded by `json.Decoder` into the Go struct
`restoreWorkItem { Path string; Meta *json.RawMessage }`.  `Meta` holds the
raw wire bytes of the metadata document, which the program never interprets. -/
structure restoreWorkItem where
  Path : String
  Meta : String
  deriving DecidableEq, Repr

/-- Model of Go `net/url.URL` restricted to the components this program
reads or writes: scheme, host, and the (decoded) path. -/
structure URL where
  scheme : String
  host : String
  path : String
  deriving DecidableEq, Repr

/-- Split a character list at the first occurrence of `://`, returning
the characters before it and the characters after it. -/
def splitScheme : List Char → Option (List Char × List Char)
  | [] => none
  | ':' :: '/' :: '/' :: rest => some ([], rest)
  | c :: rest =>
      match splitScheme rest with
      | some (pre, post) => some (c :: pre, post)
      | none => none

/-- Model of `net/url.Parse` on the shapes this development uses: a string
beginning with a colon has no protocol scheme and is rejected (as in Go,
where `url.Parse ":x"` fails with `missing protocol scheme`); a string of
the form `scheme://host/path` parses into its three components; any other
string parses as a relative URL whose path is the whole string. -/
def parseURL (s : String) : Except String URL :=
  match s.data with
  | ':' :: _ => .error "missing protocol scheme"
  | cs =>
      match splitScheme cs with
      | some (pre, rest) =>
          .ok ⟨⟨pre⟩, ⟨rest.takeWhile (fun c => c ≠ '/')⟩,
               ⟨rest.dropWhile (fun c => c ≠ '/')⟩⟩
      | none => .ok ⟨"", "", s⟩

/-- Characters a Go `url.URL.String()` leaves unescaped in the path
section (`shouldEscape` with `encodePath`): alphanumerics, the RFC 3986
unreserved marks, and the reserved characters Go keeps verbatim in paths. -/
def pathCharAllowed (c : Char) : Bool :=
  (('a' ≤ c && c ≤ 'z') || ('A' ≤ c && c ≤ 'Z') || ('0' ≤ c && c ≤ '9')
    || c = '-' || c = '_' || c = '.' || c = '~'
    || c = '$' || c = '&' || c = '+' || c = ','
    || c = '/' || c = ':' || c = ';' || c = '=' || c = '@')

/-- Upper-case hexadecimal digit for a value below 16. -/
def hexDigit (n : Nat) : Char :=
  if n < 10 then Char.ofNat (48 + n) else Char.ofNat (55 + n)

/-- Percent-escape one character as Go does for path bytes (ASCII inputs,
which is all this development evaluates). -/
def escapeChar (c : Char) : String :=
  if pathCharAllowed c then String.singleton c
  else
    String.mk ['%', hexDigit (c.toNat / 16 % 16), hexDigit (c.toNat % 16)]

/-- Model of the escaping `url.URL.String()` applies to the path. -/
def escapePath (s : String) : String :=
  String.join (s.data.map escapeChar)

/-- Model of `url.URL.String()` for an absolute URL: scheme, `://`, host,
then the escaped path.  The Go code only stringifies URLs it obtained from
`url.Parse` after overwriting their `Path` field. -/
def urlString (u : URL) : String :=
  u.scheme ++ "://" ++ u.host ++ escapePath u.path

/-- A response the remote endpoint returned: numeric status code, the
status line text (`res.Status`), and the response body. -/
structure HttpResponse where
  statusCode : Nat
  status : String
  body : String
  deriving DecidableEq, Repr

/-- Outcome of one `http.Post` call: either the transport failed to reach
the endpoint (Go returns `err != nil`), or a response arrived. -/
inductive PostResult where
  | transportError (msg : String)
  | response (r : HttpResponse)
  deriving DecidableEq, Repr

/-- The network environment: what `http.Post` yields for a given request
URL and request body. -/
def Oracle : Type := String → String → PostResult

/-- How one `restoreFile` call ends, mirroring its Go control flow:
`ok` is `return nil`; `err` is a returned non-nil `error` (the per-item
failure the worker logs); `fatal` is `log.Fatalf`, which terminates the
whole process. -/
inductive RestoreResult where
  | ok
  | err (msg : String)
  | fatal (msg : String)
  deriving DecidableEq, Repr

/-- One POST submission that actually went out on the wire. -/
structure Post where
  url : String
  contentType : String
  body : String
  deriving DecidableEq, Repr

/-- Everything observable from one `restoreFile` call: its result, the
submissions it attempted, and the response body text it copied to stderr
(done only on a non-created status). -/
structure FileOutcome where
  result : RestoreResult
  posts : List Post
  diag : Option String
  deriving DecidableEq, Repr

/-- Lower-case hexadecimal digit for a value below 16 (the `hex` table
Go's JSON encoder uses for `\u00XX` escapes). -/
def lowerHexDigit (n : Nat) : Char :=
  if n < 10 then Char.ofNat (48 + n) else Char.ofNat (87 + n)

/-- The JSON encoder's HTML escape of one character: `<`, `>` and `&`
become `\u003c`, `\u003e`, `\u0026` wherever they occur; every other
character is copied unchanged. -/
def jsonEscapeHTMLChar (c : Char) : List Char :=
  if c = '<' ∨ c = '>' ∨ c = '&' then
    ['\\', 'u', '0', '0', lowerHexDigit (c.toNat / 16 % 16),
     lowerHexDigit (c.toNat % 16)]
  else [c]

/-- One pass of Go's `appendCompact` (with HTML escaping on) over the raw
wire bytes: the first flag tracks being inside a string literal, the
second a pending backslash escape.  JSON whitespace outside string
literals is dropped, string delimiters and backslashes are copied, and
every other character goes through the HTML escape. -/
def compactAux : Bool → Bool → List Char → List Char
  | _, _, [] => []
  | true, true, c :: rest =>
      jsonEscapeHTMLChar c ++ compactAux true false rest
  | true, false, c :: rest =>
      if c = '\\' then '\\' :: compactAux true true rest
      else if c = '"' then '"' :: compactAux false false rest
      else jsonEscapeHTMLChar c ++ compactAux true false rest
  | false, _, c :: rest =>
      if c = ' ' ∨ c = '\t' ∨ c = '\n' ∨ c = '\r' then
        compactAux false false rest
      else if c = '"' then '"' :: compactAux true false rest
      else jsonEscapeHTMLChar c ++ compactAux false false rest

/-- Model of `json.Marshal` applied to the `*json.RawMessage` passed as
`data` at the POST call site: Go re-encodes the raw message's stored wire
bytes through `appendCompact` with HTML escaping on, which removes
insignificant whitespace outside string literals and rewrites `<`, `>`
and `&` anywhere as `\u003c`-style escapes — it is NOT the identity on
the wire form.  Modelled for ASCII metadata that is valid JSON, as the
archive decoder produces; on such input Marshal cannot fail, so the
error-return branch after `json.Marshal` in `restoreFile` is never taken
(and the encoder's U+2028/U+2029 rewrite has no ASCII trigger). -/
def jsonMarshalRaw (m : String) : String :=
  ⟨compactAux false false m.data⟩

/-- The fixed restore namespace the program joins paths under. -/
def restoreNamespace : String := "/.cbfs/backup/restore/"

/-- Embedding of `restoreFile(base, path, data)`.  `noop` is the `-n`
dry-run flag (`*restoreNoop`).  Control flow follows the source line by
line: dry-run returns nil at once; `url.Parse` failure is `log.Fatalf`;
the parsed URL's `Path` field is overwritten with the namespace plus the
record path; a transport error from `http.Post` is `log.Fatalf`; a status
other than 201 logs, copies the body to stderr, and returns an error. -/
def restoreFile (noop : Bool) (oracle : Oracle) (base path meta : String) :
    FileOutcome :=
  if noop then ⟨.ok, [], none⟩
  else
    match parseURL base with
    | .error e => ⟨.fatal ("Error parsing URL: " ++ e), [], none⟩
    | .ok u =>
        match oracle (urlString { u with path := restoreNamespace ++ path })
            (jsonMarshalRaw meta) with
        | .transportError e =>
            ⟨.fatal ("Error executing POST to "
                ++ urlString { u with path := restoreNamespace ++ path }
                ++ " - " ++ e),
             [⟨urlString { u with path := restoreNamespace ++ path },
               "application/json", jsonMarshalRaw meta⟩], none⟩
        | .response r =>
            if r.statusCode ≠ 201 then
              ⟨.err ("HTTP Error restoring " ++ path ++ ": " ++ r.status),
               [⟨urlString { u with path := restoreNamespace ++ path },
                 "application/json", jsonMarshalRaw meta⟩], some r.body⟩
            else
              ⟨.ok, [⟨urlString { u with path := restoreNamespace ++ path },
                      "application/json", jsonMarshalRaw meta⟩], none⟩

/-- Trace of one worker (`restoreWorker`) consuming its share of the
channel: the per-item outcomes in order, the submissions made, and whether
a `log.Fatalf` inside `restoreFile` killed the process mid-stream. -/
structure WorkerTrace where
  outcomes : List (String × RestoreResult)
  posts : List Post
  fatal : Option String
  deriving DecidableEq, Repr

/-- Embedding of the `restoreWorker` loop: pull an item, call
`restoreFile`, log a returned error and continue; a `fatal` result ends
the process, so no later item is processed. -/
def processItems (noop : Bool) (oracle : Oracle) (base : String) :
    List restoreWorkItem → WorkerTrace
  | [] => ⟨[], [], none⟩
  | ob :: rest =>
      let fo := restoreFile noop oracle base ob.Path ob.Meta
      match fo.result with
      | .fatal m => ⟨[(ob.Path, .fatal m)], fo.posts, some m⟩
      | r =>
          let t := processItems noop oracle base rest
          ⟨(ob.Path, r) :: t.outcomes, fo.posts ++ t.posts, t.fatal⟩

/-- One step of the archive decoder (`d.Decode(&ob)`): a record, a clean
end of stream (`io.EOF`), or any other decode error. -/
inductive DecodeEvent where
  | record (ob : restoreWorkItem)
  | eof
  | decodeError (msg : String)
  deriving DecidableEq, Repr

/-- What the scanning loop of `restoreCommand` produced: the records
pushed onto the channel, in archive order, and the `log.Fatalf` message if
a decode error aborted the run.  The Go counter `nfiles` increments
exactly when a record is pushed, so it equals `dispatched.length`. -/
structure ScanResult where
  dispatched : List restoreWorkItem
  fatal : Option String
  deriving DecidableEq, Repr

/-- Embedding of the `for !done` decode loop of `restoreCommand`: on a
record whose path matchp, increment `nfiles` and push; on `io.EOF`, stop
cleanly; on any other decode error, `log.Fatalf` at once.  A stream that
runs out without an explicit event is a truncated archive, which the Go
decoder also reports as an error. -/
def scanEvents (matchp : String → Bool) : List DecodeEvent → ScanResult
  | [] => ⟨[], some "Error reading backup file: unexpected end of stream"⟩
  | .eof :: _ => ⟨[], none⟩
  | .decodeError m :: _ => ⟨[], some ("Error reading backup file: " ++ m)⟩
  | .record ob :: rest =>
      if matchp ob.Path then
        let s := scanEvents matchp rest
        ⟨ob :: s.dispatched, s.fatal⟩
      else scanEvents matchp rest

/-- Aggregate observable state of one whole `restoreCommand` run. -/
structure RunResult where
  dispatched : List restoreWorkItem
  outcomes : List (String × RestoreResult)
  posts : List Post
  fatal : Option String
  summary : Option Nat
  deriving Repr

/-- Embedding of `restoreCommand` after its startup checks (pattern
compiled into `matchp`, archive opened and decompressed into `events`):
scan the archive, feed matching records to the workers, and, when neither
the scan nor any submission hit `log.Fatalf`, print the summary line
`Restored nfiles files`.  The workers process each dispatched item exactly
once; their interleaving is unspecified in Go, so the model processes the
dispatched list in order, which fixes the same multiset of submissions. -/
def restoreRun (noop : Bool) (base : String) (matchp : String → Bool)
    (oracle : Oracle) (events : List DecodeEvent) : RunResult :=
  let s := scanEvents matchp events
  let t := processItems noop oracle base s.dispatched
  match s.fatal with
  | some m => ⟨s.dispatched, t.outcomes, t.posts, some m, none⟩
  | none =>
      match t.fatal with
      | some m => ⟨s.dispatched, t.outcomes, t.posts, some m, none⟩
      | none => ⟨s.dispatched, t.outcomes, t.posts, none,
                 some s.dispatched.length⟩

/-- A well-formed archive: a finite list of records followed by a clean
end of stream. -/
def wfArchive (records : List restoreWorkItem) : List DecodeEvent :=
  records.map .record ++ [.eof]

/-- A remote endpoint that accepts every submission with `201 Created`. -/
def oracleCreated : Oracle := fun _ _ => .response ⟨201, "201 Created", ""⟩

/-- A network on which every POST fails at the transport level. -/
def oracleDown : Oracle := fun _ _ => .transportError "connection refused"

/-- A remote endpoint that rejects every submission with a server error. -/
def oracle500 : Oracle :=
  fun _ _ => .response ⟨500, "500 Internal Server Error", "boom"⟩

/-! ### Helper lemmas shared by the claim theorems -/

theorem scanEvents_wf (matchp : String → Bool)
    (records : List restoreWorkItem) :
    scanEvents matchp (wfArchive records)
      = ⟨records.filter (fun ob => matchp ob.Path), none⟩ := by
  induction records with
  | nil => rfl
  | cons a l ih =>
      show scanEvents matchp (.record a :: wfArchive l) = _
      by_cases h : matchp a.Path <;>
        simp [scanEvents, h, ih, List.filter_cons]

theorem scanEvents_decodeError (matchp : String → Bool)
    (pre : List restoreWorkItem) (m : String) (rest : List DecodeEvent) :
    scanEvents matchp (pre.map .record ++ .decodeError m :: rest)
      = ⟨pre.filter (fun ob => matchp ob.Path),
         some ("Error reading backup file: " ++ m)⟩ := by
  induction pre with
  | nil => rfl
  | cons a l ih =>
      show scanEvents matchp
        (.record a :: (l.map .record ++ .decodeError m :: rest)) = _
      by_cases h : matchp a.Path <;>
        simp [scanEvents, h, ih, List.filter_cons]

theorem restoreFile_noop (oracle : Oracle) (base path meta : String) :
    restoreFile true oracle base path meta = ⟨.ok, [], none⟩ := rfl

theorem processItems_noop (oracle : Oracle) (base : String)
    (items : List restoreWorkItem) :
    processItems true oracle base items
      = ⟨items.map (fun ob => (ob.Path, .ok)), [], none⟩ := by
  induction items with
  | nil => rfl
  | cons a l ih => simp [processItems, restoreFile_noop, ih]

theorem restoreFile_posts (oracle : Oracle) (base path meta : String)
    (u : URL) (h : parseURL base = .ok u) :
    (restoreFile false oracle base path meta).posts
      = [⟨urlString { u with path := restoreNamespace ++ path },
          "application/json", jsonMarshalRaw meta⟩] := by
  unfold restoreFile
  rw [h]
  cases hx : oracle (urlString { u with path := restoreNamespace ++ path })
      (jsonMarshalRaw meta) with
  | transportError e => simp [hx]
  | response r => by_cases h2 : r.statusCode = 201 <;> simp [hx, h2]

theorem processItems_cons (noop : Bool) (oracle : Oracle) (base : String)
    (ob : restoreWorkItem) (rest : List restoreWorkItem) :
    processItems noop oracle base (ob :: rest)
      = match (restoreFile noop oracle base ob.Path ob.Meta).result with
        | .fatal m =>
            ⟨[(ob.Path, .fatal m)],
             (restoreFile noop oracle base ob.Path ob.Meta).posts, some m⟩
        | r =>
            ⟨(ob.Path, r) :: (processItems noop oracle base rest).outcomes,
             (restoreFile noop oracle base ob.Path ob.Meta).posts
               ++ (processItems noop oracle base rest).posts,
             (processItems noop oracle base rest).fatal⟩ := rfl

theorem restoreFile_badBase (oracle : Oracle) (base path meta e : String)
    (h : parseURL base = .error e) :
    restoreFile false oracle base path meta
      = ⟨.fatal ("Error parsing URL: " ++ e), [], none⟩ := by
  unfold restoreFile
  rw [h]
  rfl

theorem compactAux_id (cs : List Char)
    (h : ∀ c ∈ cs, c ≠ ' ' ∧ c ≠ '\t' ∧ c ≠ '\n' ∧ c ≠ '\r'
          ∧ c ≠ '<' ∧ c ≠ '>' ∧ c ≠ '&') :
    ∀ s e, compactAux s e cs = cs := by
  induction cs with
  | nil => intro s e; cases s <;> cases e <;> rfl
  | cons c rest ih =>
      intro s e
      obtain ⟨h1, h2, h3, h4, h5, h6, h7⟩ := h c (List.mem_cons_self c rest)
      have hrest := ih fun x hx => h x (List.mem_cons_of_mem c hx)
      cases s <;> cases e <;>
        by_cases hq : c = '"' <;>
          by_cases hbs : c = '\\' <;>
            simp [compactAux, jsonEscapeHTMLChar, hrest,
                  h1, h2, h3, h4, h5, h6, h7, hq, hbs]

/-! ### Claim theorems -/

/-- C2: for every archive (a finite sequence of well-formed records) and
every compiled pattern, the records pushed onto the worker queue — whose
count is the final `nfiles` counter — are exactly the records whose path
matches the pattern, in archive order, and no non-matching record is ever
dispatched. -/
theorem C2_filter_correctness (records : List restoreWorkItem)
    (matchp : String → Bool) :
    (scanEvents matchp (wfArchive records)).dispatched
        = records.filter (fun ob => matchp ob.Path)
      ∧ (scanEvents matchp (wfArchive records)).dispatched.length
          = (records.filter (fun ob => matchp ob.Path)).length
      ∧ ∀ ob ∈ (scanEvents matchp (wfArchive records)).dispatched,
          matchp ob.Path := by
  rw [scanEvents_wf]
  refine ⟨rfl, rfl, ?_⟩
  intro ob hob
  exact (List.mem_filter.mp hob).2

/-- C3: with dry-run enabled, a run over any well-formed archive performs
no network submission at all, `restoreFile` returns success for every
dispatched record, and the final summary reports every matched record as
restored. -/
theorem C3_dry_run (base : String) (matchp : String → Bool) (oracle : Oracle)
    (records : List restoreWorkItem) :
    (restoreRun true base matchp oracle (wfArchive records)).posts = []
      ∧ (restoreRun true base matchp oracle (wfArchive records)).outcomes
          = (records.filter (fun ob => matchp ob.Path)).map
              (fun ob => (ob.Path, RestoreResult.ok))
      ∧ (restoreRun true base matchp oracle (wfArchive records)).summary
          = some (records.filter (fun ob => matchp ob.Path)).length := by
  simp [restoreRun, scanEvents_wf, processItems_noop]

/-- C4: an archive with a malformed record (a decode error other than
clean end of stream) aborts the run fatally at that record: nothing
positioned after it is read or dispatched (the run result does not depend
on the events after the error), and no summary line is produced. -/
theorem C4_fatal_decode (pre : List restoreWorkItem) (m : String)
    (rest : List DecodeEvent) (matchp : String → Bool)
    (noop : Bool) (base : String) (oracle : Oracle) :
    (restoreRun noop base matchp oracle
        (pre.map .record ++ .decodeError m :: rest)).dispatched
        = pre.filter (fun ob => matchp ob.Path)
      ∧ (restoreRun noop base matchp oracle
          (pre.map .record ++ .decodeError m :: rest)).fatal
          = some ("Error reading backup file: " ++ m)
      ∧ (restoreRun noop base matchp oracle
          (pre.map .record ++ .decodeError m :: rest)).summary = none
      ∧ restoreRun noop base matchp oracle
            (pre.map .record ++ .decodeError m :: rest)
          = restoreRun noop base matchp oracle
            (pre.map .record ++ [.decodeError m]) := by
  have h1 := scanEvents_decodeError matchp pre m rest
  have h2 := scanEvents_decodeError matchp pre m []
  refine ⟨?_, ?_, ?_, ?_⟩ <;> simp [restoreRun, h1, h2]

/-- C10: dry-run returns success before the base URL is ever parsed, so
for every base string — well-formed or not — a dry-run submission succeeds
unconditionally with no network effect, and a dry-run run never aborts:
base well-formedness is only ever examined inside a non-dry-run
submission. -/
theorem C10_dry_run_ignores_base (base path meta : String) (oracle : Oracle)
    (matchp : String → Bool) (records : List restoreWorkItem) :
    restoreFile true oracle base path meta = ⟨.ok, [], none⟩
      ∧ (restoreRun true base matchp oracle (wfArchive records)).fatal = none
      ∧ (restoreRun true base matchp oracle (wfArchive records)).summary
          = some (records.filter (fun ob => matchp ob.Path)).length := by
  refine ⟨rfl, ?_, ?_⟩ <;>
    simp [restoreRun, scanEvents_wf, processItems_noop]

/-- C1 counterexample: on a network where the POST fails at the transport
level, `restoreFile` ends in `log.Fatalf` (a `fatal` result), not in a
per-item `Failed` error, and a worker holding two items never reaches the
second one — the run terminates instead of continuing. -/
theorem C1_counterexample :
    (restoreFile false oracleDown "http://h" "a" "1").result
        = .fatal
          "Error executing POST to http://h/.cbfs/backup/restore/a - connection refused"
      ∧ (processItems false oracleDown "http://h"
          [restoreWorkItem.mk "a" "1", restoreWorkItem.mk "b" "2"]).outcomes.length
          = 1 := by
  exact ⟨by decide, by decide⟩

/-- C1 (amended): a transport-level failure of the HTTP POST is a fatal,
run-terminating condition (`log.Fatalf`), not a per-item `Failed` outcome:
the submitting worker's process dies at that item and no later item is
processed.  Only a completed response with a non-created status is a
per-item failure. -/
theorem C1_transport_failure_fatal (base path meta e : String)
    (oracle : Oracle) (u : URL) (rest : List restoreWorkItem)
    (hu : parseURL base = .ok u)
    (he : oracle (urlString { u with path := restoreNamespace ++ path })
            (jsonMarshalRaw meta) = .transportError e) :
    (restoreFile false oracle base path meta).result
        = .fatal ("Error executing POST to "
            ++ urlString { u with path := restoreNamespace ++ path }
            ++ " - " ++ e)
      ∧ (processItems false oracle base (⟨path, meta⟩ :: rest)).outcomes
          = [(path, .fatal ("Error executing POST to "
              ++ urlString { u with path := restoreNamespace ++ path }
              ++ " - " ++ e))] := by
  have hfile : (restoreFile false oracle base path meta).result
      = .fatal ("Error executing POST to "
          ++ urlString { u with path := restoreNamespace ++ path }
          ++ " - " ++ e) := by
    unfold restoreFile
    rw [hu]
    simp [he]
  refine ⟨hfile, ?_⟩
  simp [processItems_cons, hfile]

/-- C1 witness for the amended theorem, at a concrete down network. -/
theorem C1_transport_failure_fatal_witness :
    (restoreFile false oracleDown "http://h" "a" "1").result
        = .fatal ("Error executing POST to "
            ++ urlString { URL.mk "http" "h" "" with
                            path := restoreNamespace ++ "a" }
            ++ " - " ++ "connection refused")
      ∧ (processItems false oracleDown "http://h"
          [restoreWorkItem.mk "a" "1"]).outcomes
          = [("a", .fatal ("Error executing POST to "
              ++ urlString { URL.mk "http" "h" "" with
                              path := restoreNamespace ++ "a" }
              ++ " - " ++ "connection refused"))] :=
  C1_transport_failure_fatal "http://h" "a" "1" "connection refused"
    oracleDown ⟨"http", "h", ""⟩ [] rfl rfl

/-- C5: when the POST completes with a response, the submission succeeds
if and only if the status code is 201 (created); any other status yields a
per-item error whose message carries the status line, and the response
body is surfaced verbatim as diagnostic text. -/
theorem C5_status_classification (base path meta : String) (oracle : Oracle)
    (u : URL) (r : HttpResponse)
    (hu : parseURL base = .ok u)
    (hr : oracle (urlString { u with path := restoreNamespace ++ path })
            (jsonMarshalRaw meta) = .response r) :
    ((restoreFile false oracle base path meta).result = .ok
        ↔ r.statusCode = 201)
      ∧ (r.statusCode ≠ 201 →
          (restoreFile false oracle base path meta).result
              = .err ("HTTP Error restoring " ++ path ++ ": " ++ r.status)
            ∧ (restoreFile false oracle base path meta).diag
                = some r.body) := by
  unfold restoreFile
  rw [hu]
  by_cases h : r.statusCode = 201 <;> simp [hr, h]

/-- C5 witness, at a concrete endpoint answering 500 with body `boom`. -/
theorem C5_status_classification_witness :
    ((restoreFile false oracle500 "http://h" "a" "1").result
          = RestoreResult.ok ↔ (500 : Nat) = 201)
      ∧ ((500 : Nat) ≠ 201 →
          (restoreFile false oracle500 "http://h" "a" "1").result
              = .err ("HTTP Error restoring " ++ "a" ++ ": "
                  ++ "500 Internal Server Error")
            ∧ (restoreFile false oracle500 "http://h" "a" "1").diag
                = some "boom") :=
  C5_status_classification "http://h" "a" "1" oracle500 ⟨"http", "h", ""⟩
    ⟨500, "500 Internal Server Error", "boom"⟩ rfl rfl

/-- C6 counterexample: `parseURL ":bad"` is ill-formed, yet a run with
that base completes normally (no fatal, summary printed) when no non-dry-
run submission occurs — so base well-formedness is not validated at
startup and an ill-formed base does not abort every run. -/
theorem C6_counterexample :
    parseURL ":bad" = .error "missing protocol scheme"
      ∧ (restoreRun false ":bad" (fun _ => true) oracleCreated
          [DecodeEvent.eof]).fatal = none
      ∧ (restoreRun false ":bad" (fun _ => true) oracleCreated
          [DecodeEvent.eof]).summary = some 0 := by
  exact ⟨rfl, rfl, rfl⟩

/-- C6 (amended): a malformed base is indeed a fatal error, but it is
detected lazily inside each non-dry-run submission (`url.Parse` is called
by `restoreFile`), not during startup: startup validates only the pattern
and the archive, the fatal fires before the POST for the offending item,
and a run with an ill-formed base that attempts no submission completes
normally. -/
theorem C6_base_checked_per_submission (base path meta e : String)
    (oracle : Oracle) (ob : restoreWorkItem) (rest : List restoreWorkItem)
    (matchp : String → Bool)
    (h : parseURL base = .error e) :
    (restoreFile false oracle base path meta).result
        = .fatal ("Error parsing URL: " ++ e)
      ∧ (restoreFile false oracle base path meta).posts = []
      ∧ (processItems false oracle base (ob :: rest)).fatal
          = some ("Error parsing URL: " ++ e)
      ∧ (restoreRun false base matchp oracle [DecodeEvent.eof]).summary
          = some 0 := by
  refine ⟨?_, ?_, ?_, rfl⟩
  · rw [restoreFile_badBase oracle base path meta e h]
  · rw [restoreFile_badBase oracle base path meta e h]
  · simp only [processItems_cons]
    rw [restoreFile_badBase oracle base ob.Path ob.Meta e h]

/-- C6 witness for the amended theorem, at the concrete base `:bad`. -/
theorem C6_base_checked_per_submission_witness :
    (restoreFile false oracleCreated ":bad" "a" "1").result
        = .fatal ("Error parsing URL: " ++ "missing protocol scheme")
      ∧ (restoreFile false oracleCreated ":bad" "a" "1").posts = []
      ∧ (processItems false oracleCreated ":bad"
          [restoreWorkItem.mk "a" "1"]).fatal
          = some ("Error parsing URL: " ++ "missing protocol scheme")
      ∧ (restoreRun false ":bad" (fun _ => true) oracleCreated
          [DecodeEvent.eof]).summary = some 0 :=
  C6_base_checked_per_submission ":bad" "a" "1" "missing protocol scheme"
    oracleCreated ⟨"a", "1"⟩ [] (fun _ => true) rfl

/-- C7 counterexample: with base `http://h/pfx` the request URL is
`http://h/.cbfs/backup/restore/x` — the base's own path component `/pfx`
is dropped, not preserved, contradicting the claimed
`<base>/<restore-namespace>/<path>` shape. -/
theorem C7_counterexample :
    (restoreFile false oracleCreated "http://h/pfx" "x" "1").posts
        = [⟨"http://h/.cbfs/backup/restore/x", "application/json", "1"⟩]
      ∧ "http://h/.cbfs/backup/restore/x"
          ≠ "http://h/pfx/.cbfs/backup/restore/x" := by
  exact ⟨by decide, by decide⟩

/-- C7 (amended): the request URL is formed from the base's scheme and
host with the URL's path component REPLACED by the fixed restore namespace
followed by the record path, URL-escaped; any path component of the base
itself is discarded. -/
theorem C7_url_replaces_base_path (base path meta : String) (oracle : Oracle)
    (u : URL) (h : parseURL base = .ok u) :
    (restoreFile false oracle base path meta).posts.map Post.url
      = [u.scheme ++ "://" ++ u.host
          ++ escapePath (restoreNamespace ++ path)] := by
  rw [restoreFile_posts oracle base path meta u h]
  rfl

/-- C7 witness for the amended theorem, at a base with a path component. -/
theorem C7_url_replaces_base_path_witness :
    (restoreFile false oracleCreated "http://h/pfx" "x" "1").posts.map
        Post.url
      = ["http" ++ "://" ++ "h" ++ escapePath (restoreNamespace ++ "x")] :=
  C7_url_replaces_base_path "http://h/pfx" "x" "1" oracleCreated
    ⟨"http", "h", "/pfx"⟩ rfl

/-- C8 counterexample: `json.Marshal` applied to a raw message is not
the identity on its wire form: insignificant whitespace inside the
metadata is compacted away and `&` is HTML-escaped, so the POST body can
differ from the record's original wire bytes. -/
theorem C8_counterexample :
    jsonMarshalRaw "[1, 2]" = "[1,2]"
      ∧ "[1,2]" ≠ "[1, 2]"
      ∧ jsonMarshalRaw "\"a&b\"" = "\"a\\u0026b\""
      ∧ (restoreFile false oracleCreated "http://h" "a" "[1, 2]").posts
          = [⟨"http://h/.cbfs/backup/restore/a", "application/json",
              "[1,2]"⟩] := by
  exact ⟨by decide, by decide, by decide, by decide⟩

/-- C8 (amended): the POST body is the record's metadata re-encoded by
`json.Marshal` — the raw wire bytes compacted (insignificant whitespace
outside string literals removed) and HTML-escaped (`<`, `>`, `&` written
as `\u003c`-style escapes) — sent under the structured content type
`application/json`; it equals the original wire form when that form is
already compact and free of those characters, but not in general. -/
theorem C8_body_is_marshalled_metadata (base : String) (oracle : Oracle)
    (ob : restoreWorkItem) (u : URL)
    (h : parseURL base = .ok u) :
    (restoreFile false oracle base ob.Path ob.Meta).posts
        = [⟨urlString { u with path := restoreNamespace ++ ob.Path },
            "application/json", jsonMarshalRaw ob.Meta⟩]
      ∧ ((∀ c ∈ ob.Meta.data, c ≠ ' ' ∧ c ≠ '\t' ∧ c ≠ '\n'
            ∧ c ≠ '\r' ∧ c ≠ '<' ∧ c ≠ '>' ∧ c ≠ '&') →
          jsonMarshalRaw ob.Meta = ob.Meta) := by
  refine ⟨restoreFile_posts oracle base ob.Path ob.Meta u h, fun hc => ?_⟩
  show String.mk (compactAux false false ob.Meta.data) = ob.Meta
  rw [compactAux_id ob.Meta.data hc]

/-- C8 witness at a concrete record whose metadata is already compact and
escape-free, so the two conjuncts are both exercised. -/
theorem C8_body_is_marshalled_metadata_witness :
    (restoreFile false oracleCreated "http://h" "a" "1").posts
        = [⟨urlString ⟨"http", "h", restoreNamespace ++ "a"⟩,
            "application/json", jsonMarshalRaw "1"⟩]
      ∧ jsonMarshalRaw "1" = "1" :=
  ⟨(C8_body_is_marshalled_metadata "http://h" oracleCreated ⟨"a", "1"⟩
      ⟨"http", "h", ""⟩ rfl).1,
   (C8_body_is_marshalled_metadata "http://h" oracleCreated ⟨"a", "1"⟩
      ⟨"http", "h", ""⟩ rfl).2 (by decide)⟩

/-- C9: a per-item `Failed` outcome is isolated: the worker records it and
proceeds to its next item, the failure leaves the worker trace's fatal
state untouched (neither the worker nor the pool terminates), and the
matched counter and final summary — computed on the scanning side —
report the full matched count regardless of submission outcomes. -/
theorem C9_failure_isolation (noop : Bool) (base : String) (oracle : Oracle)
    (ob : restoreWorkItem) (rest : List restoreWorkItem) (m : String)
    (records : List restoreWorkItem) (matchp : String → Bool)
    (hfail : (restoreFile noop oracle base ob.Path ob.Meta).result = .err m)
    (hnofatal : (processItems noop oracle base
        (records.filter (fun r => matchp r.Path))).fatal = none) :
    (processItems noop oracle base (ob :: rest)).outcomes
        = (ob.Path, RestoreResult.err m)
            :: (processItems noop oracle base rest).outcomes
      ∧ (processItems noop oracle base (ob :: rest)).fatal
          = (processItems noop oracle base rest).fatal
      ∧ (restoreRun noop base matchp oracle (wfArchive records)).summary
          = some (records.filter (fun r => matchp r.Path)).length
      ∧ (restoreRun noop base matchp oracle
          (wfArchive records)).dispatched.length
          = (records.filter (fun r => matchp r.Path)).length := by
  have hcons := processItems_cons noop oracle base ob rest
  rw [hfail] at hcons
  refine ⟨by rw [hcons], by rw [hcons], ?_, ?_⟩ <;>
    simp [restoreRun, scanEvents_wf, hnofatal]

/-- C9 witness: a 500-failing endpoint, one failing item followed by a
second item, and a one-record archive whose summary still reports 1. -/
theorem C9_failure_isolation_witness :
    (processItems false oracle500 "http://h"
        [restoreWorkItem.mk "a" "1", restoreWorkItem.mk "b" "2"]).outcomes
        = ("a", RestoreResult.err
              "HTTP Error restoring a: 500 Internal Server Error")
            :: (processItems false oracle500 "http://h"
                [restoreWorkItem.mk "b" "2"]).outcomes
      ∧ (processItems false oracle500 "http://h"
          [restoreWorkItem.mk "a" "1", restoreWorkItem.mk "b" "2"]).fatal
          = (processItems false oracle500 "http://h"
              [restoreWorkItem.mk "b" "2"]).fatal
      ∧ (restoreRun false "http://h" (fun _ => true) oracle500
          (wfArchive [restoreWorkItem.mk "a" "1"])).summary = some 1
      ∧ (restoreRun false "http://h" (fun _ => true) oracle500
          (wfArchive [restoreWorkItem.mk "a" "1"])).dispatched.length = 1 :=
  C9_failure_isolation false "http://h" oracle500
    (restoreWorkItem.mk "a" "1") [restoreWorkItem.mk "b" "2"]
    "HTTP Error restoring a: 500 Internal Server Error"
    [restoreWorkItem.mk "a" "1"] (fun _ => true) (by decide) (by decide)

end Cbfs
